import Mathlib

/-!
# Verification of the parcel-delivery server (src/index.js)

A shallow embedding of the request handlers of the Express/MongoDB backend.
The document store is modelled as lists of records, one list per collection
(`users`, `parcels`, `payments`, `riders`).  MongoDB's `updateOne` updates the
first matching document and reports `modifiedCount = 1` only when the applied
`$set` actually changed the document (a `$set` that leaves every field at its
current value matches but does not modify); `deleteOne` removes the first
matching document.  `insertOne` appends and assigns a fresh identifier,
modelled by a `nextId` counter.  Timestamps (`new Date()`) are modelled as a
`now : Nat` parameter passed to each handler that reads the clock.
-/

namespace ParcelServer

/-- JavaScript truthiness of an optional string value: `undefined` and the
empty string are falsy (`!x` is true), every other string is truthy. -/
def jsTruthyStr : Option String → Bool
  | none => false
  | some s => s ≠ ""

/-- JavaScript `x || d` for an optional string `x` and default `d`:
yields `d` when `x` is `undefined` or `""` (falsy), else the string. -/
def jsOrStr (x : Option String) (d : String) : String :=
  match x with
  | none => d
  | some s => if s = "" then d else s

/-- Abstraction of `Date.prototype.toISOString` applied to the instant `now`:
the string rendering of the same machine timestamp. -/
def toIsoString (now : Nat) : String :=
  toString now

/-- A document of the `users` collection (inserted by `POST /users` with a
server-assigned `created_at`; `role` may be absent). -/
structure User where
  id : String
  email : String
  role : Option String
  created_at : Nat
deriving DecidableEq

/-- A document of the `parcels` collection.  `POST /parcels` inserts the
request payload as-is (the server-side `createdAt` assignment is commented
out in the source), so every field other than `_id` may be absent. -/
structure Parcel where
  id : String
  payment_status : Option String
  delivery_status : Option String
  assigned_rider : Option String
  assigned_at : Option Nat
  createdAt : Option Nat
deriving DecidableEq

/-- A document of the `riders` collection (`POST /riders` inserts the payload
as-is, so fields may be absent). -/
structure Rider where
  id : String
  email : Option String
  district : Option String
  status : Option String
  work_status : Option String
  current_parcel : Option String
  updated_at : Option Nat
deriving DecidableEq

/-- A document of the `payments` collection, created by `POST /payments`. -/
structure Payment where
  id : String
  parcelId : String
  email : String
  amount : Nat
  paymentMethod : String
  transactionId : String
  paid_at_string : String
  paid_at : Nat
deriving DecidableEq

/-- A document of the (hypothetical) tracking collection built by
`POST /tracking` before the insertion is attempted. -/
structure TrackingLog where
  tracking_id : Option String
  parcel_id : Option String
  status : Option String
  message : Option String
  time : Nat
  updated_by : String
deriving DecidableEq

/-- The document store: the four collections bound in `run`, the tracking
collection that `POST /tracking` would need, and the fresh-id counter used
to model MongoDB's generated `_id`s. -/
structure Store where
  users : List User
  parcels : List Parcel
  payments : List Payment
  riders : List Rider
  tracking : List TrackingLog
  nextId : Nat
deriving DecidableEq

/-- The counts reported by MongoDB's `updateOne`. -/
structure UpdateResult where
  matchedCount : Nat
  modifiedCount : Nat
deriving DecidableEq

/-- `updateOne`: apply `f` to the first element satisfying `p`, returning the
new list together with the result counts.  `modifiedCount` is `1` only when
the update actually changed the matched document. -/
def updateFirst [DecidableEq α] (p : α → Bool) (f : α → α) : List α → List α × UpdateResult
  | [] => ([], ⟨0, 0⟩)
  | x :: xs =>
    if p x then
      (f x :: xs, ⟨1, if f x = x then 0 else 1⟩)
    else
      let r := updateFirst p f xs
      (x :: r.1, r.2)

/-- `deleteOne`: remove the first element satisfying `p`, returning the new
list and the deleted count. -/
def deleteFirst (p : α → Bool) : List α → List α × Nat
  | [] => ([], 0)
  | x :: xs =>
    if p x then (xs, 1)
    else
      let r := deleteFirst p xs
      (x :: r.1, r.2)

/-! ## Request handlers -/

/-- Request body of `POST /users` (fields beyond the email that matter to the
handler; `role` stands for the rest of the payload, stored as-is). -/
structure UserReq where
  email : String
  role : Option String
deriving DecidableEq

/-- Response of `POST /users`. -/
inductive UpsertUserResp where
  | alreadyExists (message : String)
  | inserted (insertedId : String)
deriving DecidableEq

/-- `POST /users` (src/index.js:132): look the email up; if a user exists,
answer 200 "User already exists" without writing; otherwise insert the
payload extended with `created_at = new Date()`. -/
def upsertUser (req : UserReq) (now : Nat) (s : Store) : UpsertUserResp × Store :=
  match s.users.find? (fun u => u.email == req.email) with
  | some _ => (.alreadyExists "User already exists", s)
  | none =>
    let uid := toString s.nextId
    let user : User := { id := uid, email := req.email, role := req.role, created_at := now }
    (.inserted uid, { s with users := s.users ++ [user], nextId := s.nextId + 1 })

/-- Response of `PATCH /users/:id/role`. -/
inductive SetRoleResp where
  | badRequest (error : String)
  | ok (result : UpdateResult)
deriving DecidableEq

/-- `PATCH /users/:id/role` (src/index.js:147): reject any role outside
`{"admin","user"}` with 400; otherwise `updateOne` on `_id` setting `role`
and send the raw update result. -/
def setUserRole (id : String) (role : Option String) (s : Store) : SetRoleResp × Store :=
  if role = some "admin" ∨ role = some "user" then
    let r := updateFirst (fun u => u.id == id) (fun u => { u with role := role }) s.users
    (.ok r.2, { s with users := r.1 })
  else
    (.badRequest "Invalid role", s)

/-- Response of `GET /users/:email/role`. -/
inductive RoleResp where
  | badRequest (error : String)
  | notFound (error : String)
  | ok (role : String)
deriving DecidableEq

/-- `GET /users/:email/role` (src/index.js:107): 404 when no user carries the
email, else the stored role with `user.role || "user"` as the value sent. -/
def getUserRole (email : String) (s : Store) : RoleResp :=
  if email = "" then .badRequest "Email is required"
  else
    match s.users.find? (fun u => u.email == email) with
    | none => .notFound "User not found"
    | some u => .ok (jsOrStr u.role "user")

/-- Query filters of `GET /parcels`. -/
structure ParcelFilter where
  payment_status : Option String
  delivery_status : Option String
deriving DecidableEq

/-- The MongoDB query built by `GET /parcels`: each filter key is added only
when the query parameter is truthy, and a present key demands equality. -/
def parcelMatches (f : ParcelFilter) (p : Parcel) : Bool :=
  (if jsTruthyStr f.payment_status then p.payment_status == f.payment_status else true) &&
  (if jsTruthyStr f.delivery_status then p.delivery_status == f.delivery_status else true)

/-- Sort key of `sort: \x7b createdAt: -1 \x7d`: a missing `createdAt` is
treated as BSON null, which orders below every numeric timestamp. -/
def caKey : Option Nat → Nat
  | none => 0
  | some n => n + 1

/-- `a` may precede `b` in a `createdAt`-descending listing. -/
def parcelGe (a b : Parcel) : Prop := caKey b.createdAt ≤ caKey a.createdAt

instance : DecidableRel parcelGe := fun a b => Nat.decLe (caKey b.createdAt) (caKey a.createdAt)

instance : IsTotal Parcel parcelGe := ⟨fun a b => (Nat.le_total (caKey b.createdAt) (caKey a.createdAt))⟩

instance : IsTrans Parcel parcelGe := ⟨fun _ _ _ hab hbc => Nat.le_trans hbc hab⟩

/-- `GET /parcels` (src/index.js:170, behind the credential gate): find with
the optional equality filters, sorted newest-first on `createdAt`. -/
def listParcels (f : ParcelFilter) (s : Store) : List Parcel :=
  List.insertionSort parcelGe (s.parcels.filter (parcelMatches f))

/-- Request body of `POST /parcels`: the payload inserted as-is (the
`createdAt` stamping is commented out in the source). -/
structure ParcelReq where
  payment_status : Option String
  delivery_status : Option String
  assigned_rider : Option String
  assigned_at : Option Nat
  createdAt : Option Nat
deriving DecidableEq

/-- `POST /parcels` (src/index.js:210): insert the payload, 201 with the
generated id. -/
def createParcel (req : ParcelReq) (s : Store) : String × Store :=
  let pid := toString s.nextId
  let p : Parcel := { id := pid, payment_status := req.payment_status,
                      delivery_status := req.delivery_status,
                      assigned_rider := req.assigned_rider,
                      assigned_at := req.assigned_at, createdAt := req.createdAt }
  (pid, { s with parcels := s.parcels ++ [p], nextId := s.nextId + 1 })

/-- `DELETE /parcels/:id` (src/index.js:222): `deleteOne` on `_id`, raw
result sent back. -/
def deleteParcel (id : String) (s : Store) : Nat × Store :=
  let r := deleteFirst (fun p => p.id == id) s.parcels
  (r.2, { s with parcels := r.1 })

/-- Request body of `POST /riders`: the application payload, inserted as-is. -/
structure RiderReq where
  email : Option String
  district : Option String
  status : Option String
  work_status : Option String
deriving DecidableEq

/-- `POST /riders` (src/index.js:238): insert the application payload. -/
def applyAsRider (req : RiderReq) (s : Store) : String × Store :=
  let rid := toString s.nextId
  let r : Rider := { id := rid, email := req.email, district := req.district,
                     status := req.status, work_status := req.work_status,
                     current_parcel := none, updated_at := none }
  (rid, { s with riders := s.riders ++ [r], nextId := s.nextId + 1 })

/-- Response of `PATCH /riders/status/:id`. -/
inductive RiderStatusResp where
  | updated (message : String)
  | notFound (message : String)
deriving DecidableEq

/-- `PATCH /riders/status/:id` (src/index.js:260): unvalidated `$set` of
`status` and `updated_at`; 404 when `modifiedCount` is zero. -/
def setRiderStatus (id : String) (status : Option String) (now : Nat) (s : Store) :
    RiderStatusResp × Store :=
  let r := updateFirst (fun x => x.id == id)
    (fun x => { x with status := status, updated_at := some now }) s.riders
  if r.2.modifiedCount > 0 then
    (.updated "Status updated", { s with riders := r.1 })
  else
    (.notFound "Rider not found or already updated", { s with riders := r.1 })

/-- Response of `PATCH /riders/:id/status`. -/
inductive ApproveResp where
  | badRequest (error : String)
  | ok (result : UpdateResult)
deriving DecidableEq

/-- `PATCH /riders/:id/status` (src/index.js:298, admin-gated): 400 unless
the status is "active" or "rejected"; `$set` the rider's status; when the
new status is "active", re-read the rider and — when it carries a truthy
email — set the matching user's role to "rider", ignoring that update's
outcome; answer with the rider update result. -/
def approveOrRejectRider (id : String) (status : Option String) (s : Store) :
    ApproveResp × Store :=
  if status = some "active" ∨ status = some "rejected" then
    let r := updateFirst (fun x => x.id == id) (fun x => { x with status := status }) s.riders
    let s1 := { s with riders := r.1 }
    let s2 :=
      if status = some "active" then
        match s1.riders.find? (fun x => x.id == id) with
        | some rider =>
          if jsTruthyStr rider.email then
            let em := rider.email.getD ""
            { s1 with users := (updateFirst (fun u => u.email == em)
                (fun u => { u with role := some "rider" }) s1.users).1 }
          else s1
        | none => s1
      else s1
    (.ok r.2, s2)
  else
    (.badRequest "Invalid status value", s)

/-- Response of `GET /riders/available`. -/
inductive RidersResp where
  | badRequest (error : String)
  | ok (riders : List Rider)
deriving DecidableEq

/-- `GET /riders/available` (src/index.js:338): 400 on a falsy district;
otherwise find on the district alone — no status or work-status filter. -/
def listAvailableRiders (district : Option String) (s : Store) : RidersResp :=
  if jsTruthyStr district then
    .ok (s.riders.filter (fun r => r.district == district))
  else
    .badRequest "District required"

/-- `DELETE /riders/:id` (src/index.js:396): `deleteOne` on `_id`; 404 when
nothing was deleted. -/
def rejectRider (id : String) (s : Store) : Bool × Store :=
  let r := deleteFirst (fun x => x.id == id) s.riders
  (r.2 > 0, { s with riders := r.1 })

/-- Request body of `POST /parcels/assign`. -/
structure AssignReq where
  parcelId : Option String
  riderEmail : Option String
  assignedAt : Option Nat
deriving DecidableEq

/-- Response of `POST /parcels/assign`. -/
inductive AssignResp where
  | badRequest (error : String)
  | ok (parcelModified : Nat) (riderModified : Nat)
deriving DecidableEq

/-- `POST /parcels/assign` (src/index.js:352): 400 when either field is
falsy; otherwise two independent `updateOne`s — the parcel (by `_id`) gets
`delivery_status = "in_transit"`, `assigned_rider`, `assigned_at = assignedAt
|| new Date()`; the rider (by email) gets `work_status = "in_delivery"` and
`current_parcel` — and the response reports both modified counts. -/
def assignRider (req : AssignReq) (now : Nat) (s : Store) : AssignResp × Store :=
  if jsTruthyStr req.parcelId && jsTruthyStr req.riderEmail then
    let pid := req.parcelId.getD ""
    let em := req.riderEmail.getD ""
    let pr := updateFirst (fun p => p.id == pid)
      (fun p => { p with delivery_status := some "in_transit",
                         assigned_rider := some em,
                         assigned_at := some (req.assignedAt.getD now) }) s.parcels
    let rr := updateFirst (fun r => r.email == some em)
      (fun r => { r with work_status := some "in_delivery",
                         current_parcel := some pid }) s.riders
    (.ok pr.2.modifiedCount rr.2.modifiedCount, { s with parcels := pr.1, riders := rr.1 })
  else
    (.badRequest "parcelId and riderEmail are required", s)

/-- Request body of `POST /tracking`. -/
structure TrackingReq where
  tracking_id : Option String
  parcel_id : Option String
  status : Option String
  message : Option String
  updated_by : Option String
deriving DecidableEq

/-- In src/index.js the handler of `POST /tracking` (line 421) reads a
binding named `trackingCollection` (line 439); no declaration of that name
exists anywhere in the program — `run` binds only `usersCollection`,
`parcelCollection`, `paymentsCollection` and `ridersCollection`.  Reading an
undeclared binding throws a `ReferenceError`, so the binding is modelled as
absent. -/
def trackingCollectionBinding : Option Unit := none

/-- `POST /tracking` (src/index.js:421): build the log document, then
evaluate `trackingCollection.insertOne(log)` — which throws a
`ReferenceError` because the binding does not exist, so neither the insert
nor the success response is reached. -/
def postTracking (req : TrackingReq) (now : Nat) (s : Store) :
    Except String (String × Store) :=
  let log : TrackingLog :=
    { tracking_id := req.tracking_id, parcel_id := req.parcel_id,
      status := req.status, message := req.message,
      time := now, updated_by := req.updated_by.getD "" }
  match trackingCollectionBinding with
  | none => .error "ReferenceError: trackingCollection is not defined"
  | some _ =>
    (.ok (toString s.nextId,
      { s with tracking := s.tracking ++ [log], nextId := s.nextId + 1 }))

/-- Response of `GET /payments`. -/
inductive PaymentsResp where
  | forbidden (message : String)
  | ok (payments : List Payment)
deriving DecidableEq

/-- `a` may precede `b` in a `paid_at`-descending listing. -/
def paymentGe (a b : Payment) : Prop := b.paid_at ≤ a.paid_at

instance : DecidableRel paymentGe := fun a b => Nat.decLe b.paid_at a.paid_at

instance : IsTotal Payment paymentGe := ⟨fun a b => Nat.le_total b.paid_at a.paid_at⟩

instance : IsTrans Payment paymentGe := ⟨fun _ _ _ hab hbc => Nat.le_trans hbc hab⟩

/-- `GET /payments` (src/index.js:443, behind the credential gate):
403 whenever the verified claim email differs from the `email` query
parameter; otherwise find with `\x7b email \x7d` when the email is truthy
(`\x7b\x7d` when falsy), sorted `paid_at` descending. -/
def listPayments (decodedEmail : String) (queryEmail : Option String) (s : Store) :
    PaymentsResp :=
  if queryEmail = some decodedEmail then
    let q : Payment → Bool :=
      if jsTruthyStr queryEmail then fun p => p.email == decodedEmail else fun _ => true
    .ok (List.insertionSort paymentGe (s.payments.filter q))
  else
    .forbidden "forbidden access"

/-- Request body of `POST /payments`. -/
structure PaymentReq where
  parcelId : String
  email : String
  amount : Nat
  paymentMethod : String
  transactionId : String
deriving DecidableEq

/-- Response of `POST /payments`. -/
inductive PaymentResp where
  | notFound (message : String)
  | created (message : String) (insertedId : String)
deriving DecidableEq

/-- `POST /payments` (src/index.js:465): `updateOne` on the parcel's `_id`
setting `payment_status = "paid"`; when that modifies zero documents, 404
"Parcel not found or already paid" and no payment is inserted; otherwise
insert the payment document carrying `paid_at` (machine form) and
`paid_at_string` (string rendering of the same instant) and answer 201 with
the inserted id. -/
def recordPayment (req : PaymentReq) (now : Nat) (s : Store) : PaymentResp × Store :=
  let pr := updateFirst (fun p => p.id == req.parcelId)
    (fun p => { p with payment_status := some "paid" }) s.parcels
  let s1 := { s with parcels := pr.1 }
  if pr.2.modifiedCount = 0 then
    (.notFound "Parcel not found or already paid", s1)
  else
    let payId := toString s1.nextId
    let doc : Payment :=
      { id := payId, parcelId := req.parcelId, email := req.email,
        amount := req.amount, paymentMethod := req.paymentMethod,
        transactionId := req.transactionId,
        paid_at_string := toIsoString now, paid_at := now }
    (.created "Payment recorded and parcel marked as paid" payId,
     { s1 with payments := s1.payments ++ [doc], nextId := s1.nextId + 1 })

/-! ## The store-mutating operations, as one step relation -/

/-- One request to any handler that can write to the store. -/
inductive Op where
  | upsertUser (req : UserReq)
  | setUserRole (id : String) (role : Option String)
  | createParcel (req : ParcelReq)
  | deleteParcel (id : String)
  | applyAsRider (req : RiderReq)
  | setRiderStatus (id : String) (status : Option String)
  | approveOrRejectRider (id : String) (status : Option String)
  | rejectRider (id : String)
  | assignRider (req : AssignReq)
  | recordPayment (req : PaymentReq)
  | postTracking (req : TrackingReq)
deriving DecidableEq

/-- The store after one request is handled (`now` is the clock at that
request; a thrown error leaves the store untouched). -/
def stepStore (op : Op) (now : Nat) (s : Store) : Store :=
  match op with
  | .upsertUser req => (upsertUser req now s).2
  | .setUserRole id role => (setUserRole id role s).2
  | .createParcel req => (createParcel req s).2
  | .deleteParcel id => (deleteParcel id s).2
  | .applyAsRider req => (applyAsRider req s).2
  | .setRiderStatus id status => (setRiderStatus id status now s).2
  | .approveOrRejectRider id status => (approveOrRejectRider id status s).2
  | .rejectRider id => (rejectRider id s).2
  | .assignRider req => (assignRider req now s).2
  | .recordPayment req => (recordPayment req now s).2
  | .postTracking req =>
    match postTracking req now s with
    | .error _ => s
    | .ok r => r.2

/-- The `payment_status` of the parcel a `findOne`/`updateOne` on this `_id`
would target: `none` when no parcel carries the id. -/
def parcelPaymentStatus (s : Store) (pid : String) : Option (Option String) :=
  (s.parcels.find? (fun p => p.id == pid)).map Parcel.payment_status

/-! ## Lemmas about the store-operation model -/

theorem updateFirst_of_find?_none [DecidableEq α] {p : α → Bool} {f : α → α} {l : List α}
    (h : l.find? p = none) : updateFirst p f l = (l, ⟨0, 0⟩) := by
  induction l with
  | nil => rfl
  | cons x xs ih =>
    rw [List.find?_cons] at h
    unfold updateFirst
    cases hx : p x with
    | true => simp [hx] at h
    | false =>
      simp only [hx] at h ⊢
      simp [ih h]

theorem updateFirst_of_find?_fix [DecidableEq α] {p : α → Bool} {f : α → α} {l : List α}
    {x : α} (h : l.find? p = some x) (hfx : f x = x) : updateFirst p f l = (l, ⟨1, 0⟩) := by
  induction l with
  | nil => simp at h
  | cons y ys ih =>
    rw [List.find?_cons] at h
    unfold updateFirst
    cases hy : p y with
    | true =>
      simp only [hy] at h ⊢
      obtain rfl : y = x := by simpa using h
      simp [hfx]
    | false =>
      simp only [hy] at h ⊢
      simp [ih h]

theorem updateFirst_of_find?_ne [DecidableEq α] {p : α → Bool} {f : α → α} {l : List α}
    {x : α} (h : l.find? p = some x) (hfx : f x ≠ x) :
    (updateFirst p f l).2 = ⟨1, 1⟩ := by
  induction l with
  | nil => simp at h
  | cons y ys ih =>
    rw [List.find?_cons] at h
    unfold updateFirst
    cases hy : p y with
    | true =>
      simp only [hy] at h ⊢
      obtain rfl : y = x := by simpa using h
      simp [hfx]
    | false =>
      simp only [hy] at h ⊢
      simp [ih h]

theorem updateFirst_fst_of_modified_zero [DecidableEq α] {p : α → Bool} {f : α → α}
    {l : List α} (h : (updateFirst p f l).2.modifiedCount = 0) :
    (updateFirst p f l).1 = l := by
  induction l with
  | nil => rfl
  | cons x xs ih =>
    unfold updateFirst at h ⊢
    cases hx : p x with
    | true =>
      simp only [hx, if_true] at h ⊢
      cases hfx : decide (f x = x) with
      | true => simp [of_decide_eq_true hfx]
      | false => simp [of_decide_eq_false hfx] at h
    | false =>
      simp only [hx, if_false] at h ⊢
      simp [ih h]

theorem find?_updateFirst [DecidableEq α] {p : α → Bool} {f : α → α}
    (hf : ∀ a, p (f a) = p a) (l : List α) :
    ((updateFirst p f l).1).find? p = (l.find? p).map f := by
  induction l with
  | nil => rfl
  | cons x xs ih =>
    unfold updateFirst
    cases hx : p x with
    | true =>
      have hfx : p (f x) = true := (hf x).trans hx
      simp [List.find?_cons, hx, hfx]
    | false =>
      simp [List.find?_cons, hx, ih]

theorem mem_updateFirst [DecidableEq α] {p : α → Bool} {f : α → α} {l : List α}
    {y : α} (h : y ∈ (updateFirst p f l).1) :
    y ∈ l ∨ ∃ x, x ∈ l ∧ p x = true ∧ y = f x := by
  induction l with
  | nil => simp [updateFirst] at h
  | cons x xs ih =>
    unfold updateFirst at h
    cases hx : p x with
    | true =>
      simp only [hx, if_true, List.mem_cons] at h
      rcases h with h | h
      · exact Or.inr ⟨x, List.mem_cons_self x xs, hx, h⟩
      · exact Or.inl (List.mem_cons_of_mem x h)
    | false =>
      simp only [hx, Bool.false_eq_true, if_false, List.mem_cons] at h
      rcases h with h | h
      · exact Or.inl (h ▸ List.mem_cons_self x xs)
      · rcases ih h with h' | ⟨z, hz, hpz, hy⟩
        · exact Or.inl (List.mem_cons_of_mem x h')
        · exact Or.inr ⟨z, List.mem_cons_of_mem x hz, hpz, hy⟩

theorem mem_deleteFirst {p : α → Bool} {l : List α} {y : α}
    (h : y ∈ (deleteFirst p l).1) : y ∈ l := by
  induction l with
  | nil => simp [deleteFirst] at h
  | cons x xs ih =>
    unfold deleteFirst at h
    cases hx : p x with
    | true =>
      simp only [hx, if_true] at h
      exact List.mem_cons_of_mem x h
    | false =>
      simp only [hx, Bool.false_eq_true, if_false, List.mem_cons] at h
      rcases h with h | h
      · exact h ▸ List.mem_cons_self x xs
      · exact List.mem_cons_of_mem x (ih h)

/-- In a list whose keys are pairwise distinct, two members with the same key
are the same element. -/
theorem eq_of_mem_of_nodup_key {l : List α} {k : α → β}
    (hN : (l.map k).Nodup) {x y : α} (hx : x ∈ l) (hy : y ∈ l) (hk : k x = k y) :
    x = y := by
  induction l with
  | nil => simp at hx
  | cons a as ih =>
    simp only [List.map_cons, List.nodup_cons] at hN
    rcases List.mem_cons.mp hx with rfl | hx' <;>
      rcases List.mem_cons.mp hy with rfl | hy'
    · rfl
    · exact absurd (hk ▸ List.mem_map_of_mem k hy') hN.1
    · exact absurd (hk ▸ List.mem_map_of_mem k hx') hN.1
    · exact ih hN.2 hx' hy'

theorem find?_append_first {p : α → Bool} {l₁ l₂ : List α} {x : α}
    (h : l₁.find? p = some x) : (l₁ ++ l₂).find? p = some x := by
  rw [List.find?_append, h]; rfl

/-! ## Claim theorems -/

/-- C5: every `POST /tracking` request evaluates the undeclared binding
`trackingCollection` and therefore raises a `ReferenceError` before any
insertion: no tracking-log document is appended to any collection and the
success response is never sent. -/
theorem postTracking_raises_reference_error (req : TrackingReq) (now : Nat) (s : Store) :
    postTracking req now s = .error "ReferenceError: trackingCollection is not defined" ∧
    stepStore (.postTracking req) now s = s :=
  ⟨rfl, rfl⟩

/-- C10: for every non-empty district query, `GET /riders/available` returns
exactly the stored riders whose district equals the query — the filter is on
district alone, so riders with status "pending" or "rejected" and riders with
work_status "in_delivery" are included. -/
theorem listAvailableRiders_filters_on_district_alone (d : String) (s : Store)
    (hd : d ≠ "") :
    ∃ l, listAvailableRiders (some d) s = .ok l ∧
      (∀ r, r ∈ l ↔ r ∈ s.riders ∧ r.district = some d) ∧
      (∀ r, r ∈ s.riders → r.district = some d →
        (r.status = some "pending" ∨ r.status = some "rejected" ∨
          r.work_status = some "in_delivery") → r ∈ l) := by
  refine ⟨s.riders.filter (fun r => r.district == some d), ?_, ?_, ?_⟩
  · unfold listAvailableRiders
    simp [jsTruthyStr, hd]
  · intro r
    simp [List.mem_filter]
  · intro r hr hd' _
    simp [List.mem_filter, hr, hd']

/-- A sample rider: pending, mid-delivery, in district "Dhaka". -/
def wRider : Rider :=
  ⟨"r1", some "r@example.com", some "Dhaka", some "pending", some "in_delivery", none, none⟩

/-- A sample store holding only `wRider`. -/
def wStore10 : Store := ⟨[], [], [], [wRider], [], 2⟩

theorem listAvailableRiders_filters_on_district_alone_witness :
    (("Dhaka" : String) ≠ "") ∧
    (∃ l, listAvailableRiders (some "Dhaka") wStore10 = .ok l ∧
      (∀ r, r ∈ l ↔ r ∈ wStore10.riders ∧ r.district = some "Dhaka") ∧
      (∀ r, r ∈ wStore10.riders → r.district = some "Dhaka" →
        (r.status = some "pending" ∨ r.status = some "rejected" ∨
          r.work_status = some "in_delivery") → r ∈ l)) :=
  ⟨by decide, listAvailableRiders_filters_on_district_alone "Dhaka" wStore10 (by decide)⟩

theorem upsertUser_already {req : UserReq} {now : Nat} {s : Store}
    (h : (s.users.find? (fun u => u.email == req.email)).isSome) :
    upsertUser req now s = (.alreadyExists "User already exists", s) := by
  unfold upsertUser
  obtain ⟨u, hu⟩ := Option.isSome_iff_exists.mp h
  rw [hu]

theorem upsertUser_insert {req : UserReq} {now : Nat} {s : Store}
    (h : s.users.find? (fun u => u.email == req.email) = none) :
    upsertUser req now s =
      (.inserted (toString s.nextId),
       { s with users := s.users ++ [{ id := toString s.nextId, email := req.email,
                                       role := req.role, created_at := now }],
                nextId := s.nextId + 1 }) := by
  unfold upsertUser
  rw [h]

/-- C6: `POST /users` is idempotent by email — when a user with the payload's
email exists the handler acknowledges "User already exists" and leaves the
store untouched; otherwise it inserts the payload extended with the
server-assigned creation timestamp; hence a second call with the same email
reports "already exists" and leaves the store exactly as after the first. -/
theorem upsertUser_idempotent_by_email (req : UserReq) (now : Nat) (s : Store) :
    ((s.users.find? (fun u => u.email == req.email)).isSome →
       upsertUser req now s = (.alreadyExists "User already exists", s)) ∧
    (s.users.find? (fun u => u.email == req.email) = none →
       (upsertUser req now s).1 = .inserted (toString s.nextId) ∧
       (upsertUser req now s).2.users =
         s.users ++ [{ id := toString s.nextId, email := req.email,
                       role := req.role, created_at := now }]) ∧
    (∀ req' now', req'.email = req.email →
       upsertUser req' now' (upsertUser req now s).2 =
         (.alreadyExists "User already exists", (upsertUser req now s).2)) := by
  refine ⟨fun hsome => upsertUser_already hsome, ?_, ?_⟩
  · intro hnone
    rw [upsertUser_insert hnone]
    exact ⟨rfl, rfl⟩
  · intro req' now' hmail
    have hpred : (fun (u : User) => u.email == req'.email) =
        (fun u => u.email == req.email) := by
      funext u; rw [hmail]
    apply upsertUser_already
    rw [hpred]
    cases hf : s.users.find? (fun u => u.email == req.email) with
    | some u =>
      rw [upsertUser_already (by rw [hf]; rfl)]
      simp [hf]
    | none =>
      rw [upsertUser_insert hf]
      simp only
      rw [List.find?_append, hf]
      simp

/-- An empty sample store. -/
def wStore6 : Store := ⟨[], [], [], [], [], 0⟩

theorem upsertUser_idempotent_by_email_witness :
    ((wStore6.users.find? (fun u => u.email == ("a@b.c" : String)) = none) ∧
      ((upsertUser ⟨"a@b.c", none⟩ 7 wStore6).1 = .inserted (toString wStore6.nextId) ∧
       (upsertUser ⟨"a@b.c", none⟩ 7 wStore6).2.users =
         wStore6.users ++ [{ id := toString wStore6.nextId, email := "a@b.c",
                             role := none, created_at := 7 }])) ∧
    (∀ req' now', req'.email = ("a@b.c" : String) →
      upsertUser req' now' (upsertUser ⟨"a@b.c", none⟩ 7 wStore6).2 =
        (.alreadyExists "User already exists",
          (upsertUser ⟨"a@b.c", none⟩ 7 wStore6).2)) :=
  ⟨⟨rfl, (upsertUser_idempotent_by_email ⟨"a@b.c", none⟩ 7 wStore6).2.1 rfl⟩,
   (upsertUser_idempotent_by_email ⟨"a@b.c", none⟩ 7 wStore6).2.2⟩

/-- C9: `PATCH /users/:id/role` accepts exactly the roles "admin" and
"user" — a valid role yields the raw update result (with a zero modified
count when the id resolves to no user, and the stored role updated when it
does); any other value is rejected with BadRequest and the store is
untouched. -/
theorem setUserRole_validates_role (id : String) (role : Option String) (s : Store) :
    ((role = some "admin" ∨ role = some "user") →
       (∃ res, setUserRole id role s =
         (.ok res,
          { s with users := (updateFirst (fun u => u.id == id)
              (fun u => { u with role := role }) s.users).1 })) ∧
       (s.users.find? (fun u => u.id == id) = none →
          setUserRole id role s = (.ok ⟨0, 0⟩, s)) ∧
       (∀ u, s.users.find? (fun v => v.id == id) = some u →
          (setUserRole id role s).2.users.find? (fun v => v.id == id) =
            some { u with role := role })) ∧
    (role ≠ some "admin" → role ≠ some "user" →
       setUserRole id role s = (.badRequest "Invalid role", s)) := by
  constructor
  · intro hrole
    refine ⟨⟨(updateFirst (fun u => u.id == id) (fun u => { u with role := role }) s.users).2, ?_⟩, ?_, ?_⟩
    · unfold setUserRole
      rw [if_pos hrole]
    · intro hnone
      unfold setUserRole
      rw [if_pos hrole, updateFirst_of_find?_none hnone]
    · intro u hu
      unfold setUserRole
      rw [if_pos hrole]
      simp only
      rw [find?_updateFirst (p := fun v => v.id == id)
            (f := fun u => { u with role := role }) (fun a => rfl) s.users, hu]
      rfl
  · intro h1 h2
    unfold setUserRole
    rw [if_neg]
    simp [h1, h2]

/-- A sample user without a stored role. -/
def wUser : User := ⟨"u1", "a@b.c", none, 0⟩

/-- A sample store holding only `wUser`. -/
def wStore9 : Store := ⟨[wUser], [], [], [], [], 5⟩

theorem setUserRole_validates_role_witness :
    ((some "admin" = some "admin" ∨ (some "admin" : Option String) = some "user") ∧
      ∀ u, wStore9.users.find? (fun v => v.id == "u1") = some u →
        (setUserRole "u1" (some "admin") wStore9).2.users.find? (fun v => v.id == "u1") =
          some { u with role := some "admin" }) :=
  ⟨Or.inl rfl, ((setUserRole_validates_role "u1" (some "admin") wStore9).1 (Or.inl rfl)).2.2⟩

/-- C7: with any subset of the two filters, `GET /parcels` (behind the
credential gate) returns exactly the stored parcels matching every provided
filter value, sorted by `createdAt` descending (newest first). -/
theorem listParcels_filters_and_sorts (f : ParcelFilter) (s : Store) :
    (listParcels f s).Sorted parcelGe ∧
    List.Perm (listParcels f s) (s.parcels.filter (parcelMatches f)) ∧
    (∀ p, p ∈ listParcels f s ↔ p ∈ s.parcels ∧ parcelMatches f p = true) ∧
    (∀ v, f.payment_status = some v → v ≠ "" →
       ∀ p, p ∈ listParcels f s → p.payment_status = some v) := by
  have hperm : List.Perm (listParcels f s) (s.parcels.filter (parcelMatches f)) :=
    List.perm_insertionSort parcelGe _
  have hmem : ∀ p, p ∈ listParcels f s ↔ p ∈ s.parcels ∧ parcelMatches f p = true := by
    intro p
    rw [hperm.mem_iff, List.mem_filter]
  refine ⟨List.sorted_insertionSort parcelGe _, hperm, hmem, ?_⟩
  intro v hv hv' p hp
  have hm := ((hmem p).mp hp).2
  unfold parcelMatches at hm
  rw [hv] at hm
  have ht : jsTruthyStr (some v) = true := by
    unfold jsTruthyStr
    exact decide_eq_true hv'
  rw [ht] at hm
  simp only [if_true, Bool.and_eq_true] at hm
  exact beq_iff_eq.mp hm.1

/-- Two sample parcels, one paid and newer, one unpaid and older. -/
def wParcelPaid : Parcel := ⟨"p1", some "paid", some "pending", none, none, some 9⟩

/-- The older unpaid sample parcel. -/
def wParcelUnpaid : Parcel := ⟨"p2", some "unpaid", some "pending", none, none, some 3⟩

/-- A sample store holding the two sample parcels. -/
def wStore7 : Store := ⟨[], [wParcelUnpaid, wParcelPaid], [], [], [], 3⟩

theorem listParcels_filters_and_sorts_witness :
    (listParcels ⟨some "paid", none⟩ wStore7).Sorted parcelGe ∧
    (∀ p, p ∈ listParcels ⟨some "paid", none⟩ wStore7 →
       p.payment_status = some "paid") :=
  ⟨(listParcels_filters_and_sorts ⟨some "paid", none⟩ wStore7).1,
   (listParcels_filters_and_sorts ⟨some "paid", none⟩ wStore7).2.2.2
     "paid" rfl (by decide)⟩

/-- C8: `GET /payments` (behind the credential gate) answers 403 whenever the
verified claim email differs from the queried email, regardless of the stored
payments; when they agree (a verified claim email being non-empty) it returns
exactly the stored payments for that email, sorted by payment time
descending. -/
theorem listPayments_checks_email_and_sorts (de : String) (qe : Option String) (s : Store) :
    (qe ≠ some de → listPayments de qe s = .forbidden "forbidden access") ∧
    (de ≠ "" →
      ∃ l, listPayments de (some de) s = .ok l ∧
        l.Sorted paymentGe ∧
        List.Perm l (s.payments.filter (fun p => p.email == de)) ∧
        (∀ p, p ∈ l ↔ p ∈ s.payments ∧ p.email = de)) := by
  constructor
  · intro hne
    unfold listPayments
    rw [if_neg hne]
  · intro hde
    refine ⟨List.insertionSort paymentGe (s.payments.filter (fun p => p.email == de)), ?_, ?_, ?_, ?_⟩
    · unfold listPayments
      rw [if_pos rfl]
      have ht : jsTruthyStr (some de) = true := by
        unfold jsTruthyStr
        exact decide_eq_true hde
      rw [ht]
      rfl
    · exact List.sorted_insertionSort paymentGe _
    · exact List.perm_insertionSort paymentGe _
    · intro p
      rw [(List.perm_insertionSort paymentGe _).mem_iff, List.mem_filter]
      exact and_congr_right fun _ => beq_iff_eq

/-- A sample payment by `a@b.c`. -/
def wPayment : Payment := ⟨"y1", "p1", "a@b.c", 50, "card", "tx1", "4", 4⟩

/-- A sample store holding only `wPayment`. -/
def wStore8 : Store := ⟨[], [], [wPayment], [], [], 9⟩

theorem listPayments_checks_email_and_sorts_witness :
    ((some "other@b.c" ≠ some ("a@b.c" : String)) ∧
      listPayments "a@b.c" (some "other@b.c") wStore8 = .forbidden "forbidden access") ∧
    ((("a@b.c" : String) ≠ "") ∧
      ∃ l, listPayments "a@b.c" (some "a@b.c") wStore8 = .ok l ∧
        l.Sorted paymentGe ∧
        List.Perm l (wStore8.payments.filter (fun p => p.email == ("a@b.c" : String))) ∧
        (∀ p, p ∈ l ↔ p ∈ wStore8.payments ∧ p.email = "a@b.c")) :=
  ⟨⟨by decide,
    (listPayments_checks_email_and_sorts "a@b.c" (some "other@b.c") wStore8).1 (by decide)⟩,
   ⟨by decide,
    (listPayments_checks_email_and_sorts "a@b.c" (some "a@b.c") wStore8).2 (by decide)⟩⟩

/-- C3: `POST /parcels/assign` rejects a missing (falsy) `parcelId` or
`riderEmail` with BadRequest; otherwise it updates the parcel (by id) to
`delivery_status = "in_transit"` with the rider email and the provided or
current time, independently updates the rider (by email) to
`work_status = "in_delivery"` with the parcel reference — both writes
attempted regardless of the other's outcome — and reports the two modified
counts separately. -/
theorem assignRider_updates_both_sides (req : AssignReq) (now : Nat) (s : Store) :
    ((jsTruthyStr req.parcelId = false ∨ jsTruthyStr req.riderEmail = false) →
       assignRider req now s = (.badRequest "parcelId and riderEmail are required", s)) ∧
    (∀ pid em, req.parcelId = some pid → pid ≠ "" → req.riderEmail = some em → em ≠ "" →
      (assignRider req now s).1 =
        .ok (updateFirst (fun p => p.id == pid)
              (fun p => { p with delivery_status := some "in_transit",
                                 assigned_rider := some em,
                                 assigned_at := some (req.assignedAt.getD now) })
              s.parcels).2.modifiedCount
            (updateFirst (fun r => r.email == some em)
              (fun r => { r with work_status := some "in_delivery",
                                 current_parcel := some pid }) s.riders).2.modifiedCount ∧
      (assignRider req now s).2.parcels =
        (updateFirst (fun p => p.id == pid)
          (fun p => { p with delivery_status := some "in_transit",
                             assigned_rider := some em,
                             assigned_at := some (req.assignedAt.getD now) })
          s.parcels).1 ∧
      (assignRider req now s).2.riders =
        (updateFirst (fun r => r.email == some em)
          (fun r => { r with work_status := some "in_delivery",
                             current_parcel := some pid }) s.riders).1 ∧
      (assignRider req now s).2.users = s.users ∧
      (assignRider req now s).2.payments = s.payments ∧
      (∀ p, s.parcels.find? (fun x => x.id == pid) = some p →
         (assignRider req now s).2.parcels.find? (fun x => x.id == pid) =
           some { p with delivery_status := some "in_transit",
                         assigned_rider := some em,
                         assigned_at := some (req.assignedAt.getD now) }) ∧
      (∀ r, s.riders.find? (fun x => x.email == some em) = some r →
         (assignRider req now s).2.riders.find? (fun x => x.email == some em) =
           some { r with work_status := some "in_delivery",
                         current_parcel := some pid })) := by
  constructor
  · intro h
    unfold assignRider
    rcases h with h | h <;> simp [h]
  · intro pid em hp hpid he hem
    have happ : assignRider req now s =
        (.ok (updateFirst (fun p => p.id == pid)
              (fun p => { p with delivery_status := some "in_transit",
                                 assigned_rider := some em,
                                 assigned_at := some (req.assignedAt.getD now) })
              s.parcels).2.modifiedCount
            (updateFirst (fun r => r.email == some em)
              (fun r => { r with work_status := some "in_delivery",
                                 current_parcel := some pid }) s.riders).2.modifiedCount,
         { s with
            parcels := (updateFirst (fun p => p.id == pid)
              (fun p => { p with delivery_status := some "in_transit",
                                 assigned_rider := some em,
                                 assigned_at := some (req.assignedAt.getD now) })
              s.parcels).1,
            riders := (updateFirst (fun r => r.email == some em)
              (fun r => { r with work_status := some "in_delivery",
                                 current_parcel := some pid }) s.riders).1 }) := by
      unfold assignRider
      rw [hp, he]
      simp [jsTruthyStr, hpid, hem]
    refine ⟨by rw [happ], by rw [happ], by rw [happ], by rw [happ], by rw [happ], ?_, ?_⟩
    · intro p hfind
      rw [happ]
      simp only
      rw [find?_updateFirst (p := fun x => x.id == pid)
            (f := fun x => { x with delivery_status := some "in_transit",
                                    assigned_rider := some em,
                                    assigned_at := some (req.assignedAt.getD now) })
            (fun a => rfl) s.parcels, hfind]
      rfl
    · intro r hfind
      rw [happ]
      simp only
      rw [find?_updateFirst (p := fun x => x.email == some em)
            (f := fun x => { x with work_status := some "in_delivery",
                                    current_parcel := some pid })
            (fun a => rfl) s.riders, hfind]
      rfl

/-- A sample pending parcel. -/
def wParcel3 : Parcel := ⟨"p1", some "unpaid", some "pending", none, none, some 1⟩

/-- A sample available rider. -/
def wRider3 : Rider :=
  ⟨"r9", some "r@example.com", some "Dhaka", some "active", some "available", none, none⟩

/-- A sample store holding `wParcel3` and `wRider3`. -/
def wStore3 : Store := ⟨[], [wParcel3], [], [wRider3], [], 7⟩

theorem assignRider_updates_both_sides_witness :
    ((AssignReq.mk (some "p1") (some "r@example.com") none).parcelId = some "p1" ∧
      ("p1" : String) ≠ "" ∧
      (AssignReq.mk (some "p1") (some "r@example.com") none).riderEmail = some "r@example.com" ∧
      ("r@example.com" : String) ≠ "") ∧
    (assignRider ⟨some "p1", some "r@example.com", none⟩ 11 wStore3).2.parcels.find?
        (fun x => x.id == "p1") =
      some { wParcel3 with delivery_status := some "in_transit",
                           assigned_rider := some "r@example.com",
                           assigned_at := some ((none : Option Nat).getD 11) } ∧
    (assignRider ⟨some "p1", some "r@example.com", none⟩ 11 wStore3).2.riders.find?
        (fun x => x.email == some "r@example.com") =
      some { wRider3 with work_status := some "in_delivery",
                          current_parcel := some "p1" } :=
  ⟨⟨rfl, by decide, rfl, by decide⟩,
   (((assignRider_updates_both_sides ⟨some "p1", some "r@example.com", none⟩ 11 wStore3).2
      "p1" "r@example.com" rfl (by decide) rfl (by decide)).2.2.2.2.2.1 wParcel3 (by decide)),
   (((assignRider_updates_both_sides ⟨some "p1", some "r@example.com", none⟩ 11 wStore3).2
      "p1" "r@example.com" rfl (by decide) rfl (by decide)).2.2.2.2.2.2 wRider3 (by decide))⟩

/-- C4: `PATCH /riders/:id/status` rejects any status outside
`{"active","rejected"}` with BadRequest; on "active", when the rider carries
a (truthy) email, it cascades a `role = "rider"` update onto the user with
that email — so a subsequent role lookup for that email answers "rider" —
and when no user matches, the cascade is silently ignored: the users
collection is untouched and the rider update result is still returned. -/
theorem approveOrRejectRider_cascades_role (id : String) (status : Option String) (s : Store) :
    (status ≠ some "active" → status ≠ some "rejected" →
       approveOrRejectRider id status s = (.badRequest "Invalid status value", s)) ∧
    (∀ rider em, s.riders.find? (fun x => x.id == id) = some rider →
       rider.email = some em → em ≠ "" →
       (∃ res, (approveOrRejectRider id (some "active") s).1 = .ok res) ∧
       (∀ u, s.users.find? (fun x => x.email == em) = some u →
          getUserRole em (approveOrRejectRider id (some "active") s).2 = .ok "rider") ∧
       (s.users.find? (fun x => x.email == em) = none →
          (approveOrRejectRider id (some "active") s).2.users = s.users)) := by
  constructor
  · intro h1 h2
    unfold approveOrRejectRider
    rw [if_neg]
    rintro (h | h)
    · exact h1 h
    · exact h2 h
  · intro rider em hrid hmail hem
    have hfr : (updateFirst (fun x => x.id == id)
        (fun x => { x with status := some "active" }) s.riders).1.find?
          (fun x => x.id == id) = some { rider with status := some "active" } := by
      rw [find?_updateFirst (p := fun x => x.id == id)
            (f := fun x => { x with status := some "active" }) (fun a => rfl) s.riders, hrid]
      rfl
    have happ : approveOrRejectRider id (some "active") s =
        (.ok (updateFirst (fun x => x.id == id)
               (fun x => { x with status := some "active" }) s.riders).2,
         { s with
            riders := (updateFirst (fun x => x.id == id)
              (fun x => { x with status := some "active" }) s.riders).1,
            users := (updateFirst (fun u => u.email == em)
              (fun u => { u with role := some "rider" }) s.users).1 }) := by
      unfold approveOrRejectRider
      rw [if_pos (Or.inl rfl)]
      simp only [if_pos rfl, hfr]
      have : jsTruthyStr { rider with status := some "active" }.email = true := by
        simp only [hmail]
        unfold jsTruthyStr
        exact decide_eq_true hem
      rw [this]
      simp only [hmail]
      rfl
    refine ⟨⟨_, by rw [happ]⟩, ?_, ?_⟩
    · intro u hu
      rw [happ]
      unfold getUserRole
      rw [if_neg hem]
      simp only
      rw [find?_updateFirst (p := fun x => x.email == em)
            (f := fun u => { u with role := some "rider" }) (fun a => rfl) s.users, hu]
      simp [jsOrStr]
    · intro hnone
      rw [happ]
      simp only
      rw [updateFirst_of_find?_none hnone]

/-- A sample pending rider application. -/
def wRider4 : Rider :=
  ⟨"r4", some "r@example.com", some "Dhaka", some "pending", none, none, none⟩

/-- A sample user account matching `wRider4`'s email. -/
def wUser4 : User := ⟨"u4", "r@example.com", some "user", 1⟩

/-- A sample store holding `wRider4` and `wUser4`. -/
def wStore4 : Store := ⟨[wUser4], [], [], [wRider4], [], 8⟩

theorem approveOrRejectRider_cascades_role_witness :
    (wStore4.riders.find? (fun x => x.id == "r4") = some wRider4 ∧
      wRider4.email = some "r@example.com" ∧ ("r@example.com" : String) ≠ "") ∧
    getUserRole "r@example.com" (approveOrRejectRider "r4" (some "active") wStore4).2 =
      .ok "rider" :=
  ⟨⟨by decide, rfl, by decide⟩,
   ((approveOrRejectRider_cascades_role "r4" (some "active") wStore4).2
      wRider4 "r@example.com" (by decide) rfl (by decide)).2.1 wUser4 (by decide)⟩

/-- Setting `payment_status` to "paid" is a no-op exactly on parcels already
paid. -/
theorem paidSet_eq_self {x : Parcel} (h : x.payment_status = some "paid") :
    ({ x with payment_status := some "paid" } : Parcel) = x := by
  cases x
  simp_all

theorem paidSet_ne_self {x : Parcel} (h : x.payment_status ≠ some "paid") :
    ({ x with payment_status := some "paid" } : Parcel) ≠ x := by
  intro he
  have hps := congrArg Parcel.payment_status he
  exact h hps.symm

/-- C1: `POST /payments` first tries to mark the parcel paid; when that
modifies zero documents (parcel missing, or present but already paid) it
answers 404 "Parcel not found or already paid" and the store — the payments
collection in particular — is unchanged; otherwise it appends exactly one
payment document carrying the machine timestamp and its string rendering and
returns the new identifier. -/
theorem recordPayment_gates_payment_insertion (req : PaymentReq) (now : Nat) (s : Store) :
    ((s.parcels.find? (fun p => p.id == req.parcelId) = none ∨
      (∃ p, s.parcels.find? (fun p => p.id == req.parcelId) = some p ∧
            p.payment_status = some "paid")) →
       recordPayment req now s = (.notFound "Parcel not found or already paid", s)) ∧
    (∀ p, s.parcels.find? (fun x => x.id == req.parcelId) = some p →
       p.payment_status ≠ some "paid" →
       ∃ pay, (recordPayment req now s).2.payments = s.payments ++ [pay] ∧
         pay.paid_at = now ∧ pay.paid_at_string = toIsoString now ∧
         pay.parcelId = req.parcelId ∧ pay.email = req.email ∧
         (recordPayment req now s).1 =
           .created "Payment recorded and parcel marked as paid" pay.id) := by
  constructor
  · intro h
    unfold recordPayment
    rcases h with hnone | ⟨p, hp, hpaid⟩
    · rw [updateFirst_of_find?_none hnone]
      rfl
    · rw [updateFirst_of_find?_fix hp (paidSet_eq_self hpaid)]
      rfl
  · intro p hp hpaid
    have hne := paidSet_ne_self hpaid
    have h2 := updateFirst_of_find?_ne
      (f := fun x => { x with payment_status := some "paid" }) hp hne
    refine ⟨{ id := toString s.nextId, parcelId := req.parcelId, email := req.email,
              amount := req.amount, paymentMethod := req.paymentMethod,
              transactionId := req.transactionId,
              paid_at_string := toIsoString now, paid_at := now }, ?_, rfl, rfl, rfl, rfl, ?_⟩ <;>
    · unfold recordPayment
      simp only [h2]
      rfl

/-- A sample store with one unpaid parcel. -/
def wStore1 : Store := ⟨[], [wParcelUnpaid], [], [], [], 4⟩

/-- A sample payment request against the unpaid parcel `p2`. -/
def wPayReq : PaymentReq := ⟨"p2", "a@b.c", 120, "card", "tx9"⟩

theorem recordPayment_gates_payment_insertion_witness :
    (wStore1.parcels.find? (fun x => x.id == wPayReq.parcelId) = some wParcelUnpaid ∧
      wParcelUnpaid.payment_status ≠ some "paid") ∧
    (∃ pay, (recordPayment wPayReq 6 wStore1).2.payments = wStore1.payments ++ [pay] ∧
      pay.paid_at = 6 ∧ pay.paid_at_string = toIsoString 6 ∧
      pay.parcelId = wPayReq.parcelId ∧ pay.email = wPayReq.email ∧
      (recordPayment wPayReq 6 wStore1).1 =
        .created "Payment recorded and parcel marked as paid" pay.id) :=
  ⟨⟨by decide, by decide⟩,
   (recordPayment_gates_payment_insertion wPayReq 6 wStore1).2
     wParcelUnpaid (by decide) (by decide)⟩

/-! ### Which operations can touch `parcels` -/

theorem upsertUser_parcels (req : UserReq) (now : Nat) (s : Store) :
    (upsertUser req now s).2.parcels = s.parcels := by
  unfold upsertUser
  cases s.users.find? (fun u => u.email == req.email) <;> rfl

theorem setUserRole_parcels (id : String) (role : Option String) (s : Store) :
    (setUserRole id role s).2.parcels = s.parcels := by
  unfold setUserRole
  split <;> rfl

theorem setRiderStatus_parcels (id : String) (status : Option String) (now : Nat) (s : Store) :
    (setRiderStatus id status now s).2.parcels = s.parcels := by
  unfold setRiderStatus
  dsimp only
  split <;> rfl

theorem approveOrRejectRider_parcels (id : String) (status : Option String) (s : Store) :
    (approveOrRejectRider id status s).2.parcels = s.parcels := by
  unfold approveOrRejectRider
  split
  · simp only
    split
    · split
      · split <;> rfl
      · rfl
    · rfl
  · rfl

/-- The three `recordPayment` outcomes, characterised by the parcel lookup. -/
theorem recordPayment_notFound_of_none {req : PaymentReq} {now : Nat} {s : Store}
    (hf : s.parcels.find? (fun p => p.id == req.parcelId) = none) :
    recordPayment req now s = (.notFound "Parcel not found or already paid", s) := by
  unfold recordPayment
  rw [updateFirst_of_find?_none hf]
  rfl

theorem recordPayment_notFound_of_paid {req : PaymentReq} {now : Nat} {s : Store} {x : Parcel}
    (hf : s.parcels.find? (fun p => p.id == req.parcelId) = some x)
    (hx : x.payment_status = some "paid") :
    recordPayment req now s = (.notFound "Parcel not found or already paid", s) := by
  unfold recordPayment
  rw [updateFirst_of_find?_fix hf (paidSet_eq_self hx)]
  rfl

theorem recordPayment_created_of_unpaid {req : PaymentReq} {now : Nat} {s : Store} {x : Parcel}
    (hf : s.parcels.find? (fun p => p.id == req.parcelId) = some x)
    (hx : x.payment_status ≠ some "paid") :
    recordPayment req now s =
      (.created "Payment recorded and parcel marked as paid" (toString s.nextId),
       { s with
          parcels := (updateFirst (fun p => p.id == req.parcelId)
            (fun p => { p with payment_status := some "paid" }) s.parcels).1,
          payments := s.payments ++
            [{ id := toString s.nextId, parcelId := req.parcelId, email := req.email,
               amount := req.amount, paymentMethod := req.paymentMethod,
               transactionId := req.transactionId,
               paid_at_string := toIsoString now, paid_at := now }],
          nextId := s.nextId + 1 }) := by
  unfold recordPayment
  simp only [updateFirst_of_find?_ne (f := fun p => { p with payment_status := some "paid" })
    hf (paidSet_ne_self hx)]
  rfl

/-- An update that preserves both id and payment status cannot make the
parcel under a given id paid when it was not. -/
theorem no_new_paid_updateFirst {g : Parcel → Parcel}
    (hid : ∀ p, (g p).id = p.id)
    (hps : ∀ p, (g p).payment_status = p.payment_status)
    {q : Parcel → Bool} {l : List Parcel}
    (hN : (l.map Parcel.id).Nodup) {pid : String} {v : Option String}
    (hpre : (l.find? (fun p => p.id == pid)).map Parcel.payment_status = some v)
    (hv : v ≠ some "paid")
    (hpost : (((updateFirst q g l).1.find? (fun p => p.id == pid)).map
        Parcel.payment_status) = some (some "paid")) :
    False := by
  cases hfy : l.find? (fun p => p.id == pid) with
  | none => rw [hfy] at hpre; simp at hpre
  | some y =>
    rw [hfy] at hpre
    have hyv : y.payment_status = v := Option.some.inj hpre
    have hymem := List.mem_of_find?_eq_some hfy
    have hyid : y.id = pid := by simpa using List.find?_some hfy
    cases hfx : (updateFirst q g l).1.find? (fun p => p.id == pid) with
    | none => rw [hfx] at hpost; simp at hpost
    | some x' =>
      rw [hfx] at hpost
      have hx'paid : x'.payment_status = some "paid" := Option.some.inj hpost
      have hx'mem := List.mem_of_find?_eq_some hfx
      have hx'id : x'.id = pid := by simpa using List.find?_some hfx
      rcases mem_updateFirst hx'mem with hmem | ⟨z, hz, hqz, rfl⟩
      · have : x' = y := eq_of_mem_of_nodup_key hN hmem hymem (by rw [hx'id, hyid])
        subst this
        exact hv (hyv ▸ hx'paid)
      · have hzid : z.id = pid := (hid z) ▸ hx'id
        have : z = y := eq_of_mem_of_nodup_key hN hz hymem (by rw [hzid, hyid])
        subst this
        exact hv (hyv ▸ (hps z) ▸ hx'paid)

/-- C2: across every store-mutating request, a parcel's `payment_status`
becomes "paid" only through a `POST /payments` naming that parcel and
answering success, and only once: a later `recordPayment` on the same parcel
finds the no-op update and fails with the single ambiguous "not found or
already paid" response, leaving the store unchanged. -/
theorem paid_transition_only_via_recordPayment :
    (∀ (op : Op) (now : Nat) (s : Store) (pid : String) (v : Option String),
       (s.parcels.map Parcel.id).Nodup →
       parcelPaymentStatus s pid = some v → v ≠ some "paid" →
       parcelPaymentStatus (stepStore op now s) pid = some (some "paid") →
       ∃ req, op = Op.recordPayment req ∧ req.parcelId = pid ∧
         (recordPayment req now s).1 =
           .created "Payment recorded and parcel marked as paid" (toString s.nextId)) ∧
    (∀ (req req' : PaymentReq) (now now' : Nat) (s : Store) (m i : String),
       (recordPayment req now s).1 = .created m i → req'.parcelId = req.parcelId →
       recordPayment req' now' (recordPayment req now s).2 =
         (.notFound "Parcel not found or already paid", (recordPayment req now s).2)) := by
  constructor
  · intro op now s pid v hN hpre hv hpost
    unfold parcelPaymentStatus at hpre hpost
    cases op with
    | upsertUser req =>
      simp only [stepStore, upsertUser_parcels] at hpost
      rw [hpre] at hpost
      exact absurd (Option.some.inj hpost) hv
    | setUserRole id role =>
      simp only [stepStore, setUserRole_parcels] at hpost
      rw [hpre] at hpost
      exact absurd (Option.some.inj hpost) hv
    | createParcel req =>
      simp only [stepStore, createParcel] at hpost
      cases hfy : s.parcels.find? (fun p => p.id == pid) with
      | none => rw [hfy] at hpre; simp at hpre
      | some y =>
        rw [find?_append_first hfy] at hpost
        rw [hfy] at hpre
        rw [hpre] at hpost
        exact absurd (Option.some.inj hpost) hv
    | deleteParcel id =>
      simp only [stepStore, deleteParcel] at hpost
      cases hfy : s.parcels.find? (fun p => p.id == pid) with
      | none => rw [hfy] at hpre; simp at hpre
      | some y =>
        rw [hfy] at hpre
        have hyv : y.payment_status = v := Option.some.inj hpre
        have hymem := List.mem_of_find?_eq_some hfy
        have hyid : y.id = pid := by simpa using List.find?_some hfy
        cases hfx : (deleteFirst (fun p => p.id == id) s.parcels).1.find?
            (fun p => p.id == pid) with
        | none => rw [hfx] at hpost; simp at hpost
        | some x' =>
          rw [hfx] at hpost
          have hx'paid : x'.payment_status = some "paid" := Option.some.inj hpost
          have hx'mem := mem_deleteFirst (List.mem_of_find?_eq_some hfx)
          have hx'id : x'.id = pid := by simpa using List.find?_some hfx
          have : x' = y := eq_of_mem_of_nodup_key hN hx'mem hymem (by rw [hx'id, hyid])
          subst this
          exact absurd (hyv ▸ hx'paid) hv
    | applyAsRider req =>
      simp only [stepStore, applyAsRider] at hpost
      rw [hpre] at hpost
      exact absurd (Option.some.inj hpost) hv
    | setRiderStatus id status =>
      simp only [stepStore, setRiderStatus_parcels] at hpost
      rw [hpre] at hpost
      exact absurd (Option.some.inj hpost) hv
    | approveOrRejectRider id status =>
      simp only [stepStore, approveOrRejectRider_parcels] at hpost
      rw [hpre] at hpost
      exact absurd (Option.some.inj hpost) hv
    | rejectRider id =>
      simp only [stepStore, rejectRider] at hpost
      rw [hpre] at hpost
      exact absurd (Option.some.inj hpost) hv
    | assignRider req =>
      simp only [stepStore] at hpost
      by_cases hc : (jsTruthyStr req.parcelId && jsTruthyStr req.riderEmail) = true
      · have hparc : (assignRider req now s).2.parcels =
            (updateFirst (fun p => p.id == req.parcelId.getD "")
              (fun p => { p with delivery_status := some "in_transit",
                                 assigned_rider := some (req.riderEmail.getD ""),
                                 assigned_at := some (req.assignedAt.getD now) })
              s.parcels).1 := by
          unfold assignRider
          rw [if_pos hc]
        rw [hparc] at hpost
        exact (no_new_paid_updateFirst
          (g := fun p =>
            { p with delivery_status := some "in_transit",
                     assigned_rider := some (req.riderEmail.getD ""),
                     assigned_at := some (req.assignedAt.getD now) })
          (fun p => rfl) (fun p => rfl) hN hpre hv hpost).elim
      · have hparc : (assignRider req now s).2.parcels = s.parcels := by
          unfold assignRider
          rw [if_neg hc]
        rw [hparc] at hpost
        rw [hpre] at hpost
        exact absurd (Option.some.inj hpost) hv
    | recordPayment req =>
      simp only [stepStore] at hpost
      cases hf : s.parcels.find? (fun p => p.id == req.parcelId) with
      | none =>
        rw [recordPayment_notFound_of_none hf] at hpost
        rw [hpre] at hpost
        exact absurd (Option.some.inj hpost) hv
      | some x =>
        by_cases hx : x.payment_status = some "paid"
        · rw [recordPayment_notFound_of_paid hf hx] at hpost
          rw [hpre] at hpost
          exact absurd (Option.some.inj hpost) hv
        · refine ⟨req, rfl, ?_, by rw [recordPayment_created_of_unpaid hf hx]⟩
          have hparc : (recordPayment req now s).2.parcels =
              (updateFirst (fun p => p.id == req.parcelId)
                (fun p => { p with payment_status := some "paid" }) s.parcels).1 := by
            rw [recordPayment_created_of_unpaid hf hx]
          rw [hparc] at hpost
          cases hfx : (updateFirst (fun p => p.id == req.parcelId)
              (fun p => { p with payment_status := some "paid" }) s.parcels).1.find?
                (fun p => p.id == pid) with
          | none => rw [hfx] at hpost; simp at hpost
          | some x' =>
            have hx'mem := mem_updateFirst (List.mem_of_find?_eq_some hfx)
            have hx'id : x'.id = pid := by simpa using List.find?_some hfx
            cases hfy : s.parcels.find? (fun p => p.id == pid) with
            | none => rw [hfy] at hpre; simp at hpre
            | some y =>
              rw [hfy] at hpre
              have hyv : y.payment_status = v := Option.some.inj hpre
              have hymem := List.mem_of_find?_eq_some hfy
              have hyid : y.id = pid := by simpa using List.find?_some hfy
              rw [hfx] at hpost
              have hx'paid : x'.payment_status = some "paid" := Option.some.inj hpost
              rcases hx'mem with hmem | ⟨z, hz, hqz, rfl⟩
              · have : x' = y := eq_of_mem_of_nodup_key hN hmem hymem (by rw [hx'id, hyid])
                subst this
                exact absurd (hyv ▸ hx'paid) hv
              · have hzq : z.id = req.parcelId := by simpa using hqz
                have hzid : z.id = pid := hx'id
                rw [← hzq, hzid]
    | postTracking req =>
      have hstep : stepStore (.postTracking req) now s = s := rfl
      rw [hstep] at hpost
      rw [hpre] at hpost
      exact absurd (Option.some.inj hpost) hv
  · intro req req' now now' s m i hcr heq
    cases hf : s.parcels.find? (fun p => p.id == req.parcelId) with
    | none =>
      rw [recordPayment_notFound_of_none hf] at hcr
      simp at hcr
    | some x =>
      by_cases hx : x.payment_status = some "paid"
      · rw [recordPayment_notFound_of_paid hf hx] at hcr
        simp at hcr
      · have hparc : (recordPayment req now s).2.parcels =
            (updateFirst (fun p => p.id == req.parcelId)
              (fun p => { p with payment_status := some "paid" }) s.parcels).1 := by
          rw [recordPayment_created_of_unpaid hf hx]
        have hfind2 : (recordPayment req now s).2.parcels.find?
            (fun p => p.id == req'.parcelId) =
              some { x with payment_status := some "paid" } := by
          rw [heq, hparc,
            find?_updateFirst (p := fun p => p.id == req.parcelId)
              (f := fun p => { p with payment_status := some "paid" }) (fun a => rfl)
              s.parcels, hf]
          rfl
        exact recordPayment_notFound_of_paid hfind2 rfl

/-- The sample store from `wStore1` after paying for parcel `p2` at time 6:
used to exercise the paid-transition theorem at a concrete input. -/
theorem paid_transition_only_via_recordPayment_witness :
    ((wStore1.parcels.map Parcel.id).Nodup ∧
      parcelPaymentStatus wStore1 "p2" = some (some "unpaid") ∧
      (some "unpaid" : Option String) ≠ some "paid" ∧
      parcelPaymentStatus (stepStore (Op.recordPayment wPayReq) 6 wStore1) "p2" =
        some (some "paid")) ∧
    (∃ req, Op.recordPayment wPayReq = Op.recordPayment req ∧ req.parcelId = "p2" ∧
      (recordPayment req 6 wStore1).1 =
        .created "Payment recorded and parcel marked as paid" (toString wStore1.nextId)) :=
  ⟨⟨by decide, by decide, by decide, by decide⟩,
   paid_transition_only_via_recordPayment.1 (Op.recordPayment wPayReq) 6 wStore1
     "p2" (some "unpaid") (by decide) (by decide) (by decide) (by decide)⟩

end ParcelServer

